import Mathlib

/-!
Verification of the slot/booking consistency engine of `app.py`
(an appointment-booking application).

The SQLite tables `users`, `slots`, `bookings` are embedded as Lean lists
(rows in insertion order, which is how SQLite returns them absent an
ORDER BY), together with the AUTOINCREMENT counters `nextUserId`,
`nextSlotId`, `nextBookingId` (SQLite AUTOINCREMENT starts at 1 and never
reuses an id).  ISO-8601 textual timestamps compare lexically exactly as
they compare chronologically, so timestamps are embedded as `Nat` minutes;
a calendar day `d` covers minutes `[d*1440, d*1440+1439]`, matching the
`BETWEEN datetime.combine(d, time.min) AND datetime.combine(d, time.max)`
range query of `get_slots_by_date`.  `datetime.date.weekday` cycles mod 7,
so days are numbered from a Monday epoch and the weekday of day `d` is
`d % 7`.

PBKDF2-HMAC-SHA256 (`hashlib.pbkdf2_hmac('sha256', pw, salt, 200_000)`,
hex-encoded) is a pure deterministic function of the password and the salt;
it is embedded as an explicit function parameter `H : String → String →
String`.  The random 16-byte salt drawn by `secrets.token_bytes` in
`hash_password` is likewise passed in explicitly (derandomisation).
-/

inductive BStatus where
  | booked
  | canceled
deriving DecidableEq, Repr

structure Slot where
  id : Nat
  start_ts : Nat
  end_ts : Nat
  capacity : Int
  created_by : Nat
deriving DecidableEq, Repr

structure Booking where
  id : Nat
  slot_id : Nat
  user_id : Nat
  name : String
  email : String
  phone : String
  notes : String
  status : BStatus
deriving DecidableEq, Repr

structure User where
  id : Nat
  name : String
  email : String
  salt : String
  pw_hash : String
  is_admin : Bool
deriving DecidableEq, Repr

structure State where
  users : List User
  slots : List Slot
  bookings : List Booking
  nextUserId : Nat
  nextSlotId : Nat
  nextBookingId : Nat
deriving DecidableEq, Repr

/-- The freshly initialised database: all tables empty (`init_db`),
AUTOINCREMENT counters at 1. -/
def initState : State :=
  { users := [], slots := [], bookings := [], nextUserId := 1, nextSlotId := 1, nextBookingId := 1 }

/-- `hash_password` (app.py:65-68): derives the key from the password and
the (here explicitly supplied) random salt; returns (salt, dk) hex pair. -/
def hash_password (H : String → String → String) (salt password : String) : String × String :=
  (salt, H password salt)

/-- `verify_password` (app.py:70-73): recomputes the derived key with the
stored salt and compares it to the stored hash. -/
def verify_password (H : String → String → String) (password salt_hex hash_hex : String) : Bool :=
  H password salt_hex == hash_hex

/-- `create_user` (app.py:78-86): hashes the password, then inserts the row;
the UNIQUE constraint on `users.email` raises IntegrityError when the email
is already present, returning (False, "Email already registered"). -/
def create_user (H : String → String → String) (salt : String) (st : State)
    (name email password : String) (is_admin : Bool) : State × (Bool × String) :=
  let hp := hash_password H salt password
  if st.users.any (fun u => u.email == email) then
    (st, (false, "Email already registered"))
  else
    ({ st with
        users := st.users ++
          [{ id := st.nextUserId, name := name, email := email,
             salt := hp.1, pw_hash := hp.2, is_admin := is_admin }],
        nextUserId := st.nextUserId + 1 },
     (true, "User created"))

/-- Every call site of `create_user` (app.py:271, app.py:290) passes
`name.strip()` and `email.strip().lower()`; this is the `createUser`
operation of the spec's operations surface, normalisation included. -/
def createUser (H : String → String → String) (salt : String) (st : State)
    (name email password : String) (is_admin : Bool) : State × (Bool × String) :=
  create_user H salt st name.trim email.trim.toLower password is_admin

/-- `get_user_by_email` (app.py:88-93): `SELECT ... WHERE email=?`
(exact-match lookup), first row or none. -/
def get_user_by_email (st : State) (email : String) : Option User :=
  st.users.find? (fun u => u.email == email)

/-- `authenticate_user` (app.py:95-101). -/
def authenticate_user (H : String → String → String) (st : State)
    (email password : String) : Option User :=
  match get_user_by_email st email with
  | none => none
  | some user => if verify_password H password user.salt user.pw_hash then some user else none

/-- `create_slot` (app.py:122-125): inserts one slot row. -/
def create_slot (st : State) (start_ts end_ts : Nat) (capacity : Int) (created_by : Nat) : State :=
  { st with
      slots := st.slots ++
        [{ id := st.nextSlotId, start_ts := start_ts, end_ts := end_ts,
           capacity := capacity, created_by := created_by }],
      nextSlotId := st.nextSlotId + 1 }

/-- The `SELECT COUNT(*) FROM bookings WHERE slot_id=? AND status='booked'`
query issued both by `slot_available_seats` (app.py:145) and by
`book_slot` (app.py:161); the spec calls it `countBookedBookings`. -/
def countBookedBookings (st : State) (slot_id : Nat) : Nat :=
  st.bookings.countP (fun b => b.slot_id == slot_id && b.status == BStatus.booked)

/-- `slot_available_seats` (app.py:144-147): `max(0, capacity - cnt)` with
`cnt` the live booked count for the slot. -/
def slot_available_seats (st : State) (slot_id : Nat) (capacity : Int) : Int :=
  let cnt := (st.bookings.filter (fun b => b.slot_id == slot_id && b.status == BStatus.booked)).length
  max 0 (capacity - cnt)

/-- `get_slots_by_date` (app.py:127-142): slots whose start falls inside
the calendar day (inclusive BETWEEN), ordered by start time, each annotated
with its computed availability. -/
def get_slots_by_date (st : State) (d : Nat) : List (Slot × Int) :=
  ((st.slots.filter (fun s => d * 1440 ≤ s.start_ts && s.start_ts ≤ d * 1440 + 1439)).mergeSort
      (fun a b => a.start_ts ≤ b.start_ts)).map
    (fun s => (s, slot_available_seats st s.id s.capacity))

/-- `remove_slot` (app.py:149-152): deletes all bookings referencing the
slot, then deletes the slot row. -/
def remove_slot (st : State) (slot_id : Nat) : State :=
  { st with
      bookings := st.bookings.filter (fun b => !(b.slot_id == slot_id)),
      slots := st.slots.filter (fun s => !(s.id == slot_id)) }

inductive BookResult where
  | ok
  | slotNotFound
  | slotFull
  | duplicateBooking
deriving DecidableEq, Repr

/-- `book_slot` (app.py:154-176): fetch the slot (fail "Slot not found"),
check the booked count against capacity (fail "Slot is full"), check for an
existing booked row for the same (slot, user) (fail "You already have a
booking for this slot"), then insert a booking with status 'booked'. -/
def book_slot (st : State) (slot_id user_id : Nat) (name email phone notes : String) :
    State × BookResult :=
  match st.slots.find? (fun s => s.id == slot_id) with
  | none => (st, BookResult.slotNotFound)
  | some row =>
    let capacity := row.capacity
    let booked := st.bookings.countP (fun b => b.slot_id == slot_id && b.status == BStatus.booked)
    if (booked : Int) ≥ capacity then
      (st, BookResult.slotFull)
    else
      let dup := st.bookings.countP
        (fun b => b.slot_id == slot_id && b.user_id == user_id && b.status == BStatus.booked)
      if dup > 0 then
        (st, BookResult.duplicateBooking)
      else
        ({ st with
            bookings := st.bookings ++
              [{ id := st.nextBookingId, slot_id := slot_id, user_id := user_id,
                 name := name, email := email, phone := phone, notes := notes,
                 status := BStatus.booked }],
            nextBookingId := st.nextBookingId + 1 },
         BookResult.ok)

/-- `cancel_booking` (app.py:205-207): `UPDATE bookings SET
status='canceled' WHERE id=?`. -/
def cancel_booking (st : State) (booking_id : Nat) : State :=
  { st with
      bookings := st.bookings.map
        (fun b => if b.id == booking_id then { b with status := BStatus.canceled } else b) }

/-- The inner tiling loop of the recurring-slot form handler
(app.py:352-355): `while dt_cursor + duration <= dt_end_of_day:
create_slot(dt_cursor, dt_cursor + duration); dt_cursor += duration`,
counting the slots created.  The `0 < dur` conjunct in the guard records
the form constraint `min_value=5` on the duration (app.py:336): the Python
loop is only ever entered with a positive duration (with `dur = 0` it would
not terminate). -/
def create_slots_in_day (st : State) (cursor dt_end dur : Nat) (cap : Int) (uid created : Nat) :
    State × Nat :=
  if h : 0 < dur ∧ cursor + dur ≤ dt_end then
    create_slots_in_day (create_slot st cursor (cursor + dur) cap uid)
      (cursor + dur) dt_end dur cap uid (created + 1)
  else
    (st, created)
termination_by dt_end - cursor
decreasing_by omega

/-- The day loop of the recurring-slot form handler (app.py:347-356):
for each day from `cur_date` to `end_date`, if its weekday is allowed,
tile the daily window; then advance one day. -/
def create_slots_over_days (st : State) (cur_date end_date : Nat) (allowed : List Nat)
    (start_min end_min dur : Nat) (cap : Int) (uid created : Nat) : State × Nat :=
  if h : cur_date ≤ end_date then
    let step :=
      if cur_date % 7 ∈ allowed then
        create_slots_in_day st (cur_date * 1440 + start_min) (cur_date * 1440 + end_min)
          dur cap uid created
      else
        (st, created)
    create_slots_over_days step.1 (cur_date + 1) end_date allowed start_min end_min dur cap uid step.2
  else
    (st, created)
termination_by end_date + 1 - cur_date
decreasing_by omega

/-- The whole "Create slots" form handler (app.py:340-357), after its
`end_date < start_date` rejection: an empty day-of-week selection means all
seven weekdays (app.py:346); returns the final state and the reported
`created` count. -/
def create_slots_handler (st : State) (start_date end_date : Nat) (days_of_week : List Nat)
    (start_min end_min dur : Nat) (cap : Int) (uid : Nat) : State × Nat :=
  let allowed := if days_of_week.isEmpty then [0, 1, 2, 3, 4, 5, 6] else days_of_week
  create_slots_over_days st start_date end_date allowed start_min end_min dur cap uid 0

/-- The count of booked bookings held by one (slot, user) pair: the
`SELECT COUNT(*) ... WHERE slot_id=? AND user_id=? AND status='booked'`
query of app.py:167. -/
def countBookedPair (st : State) (slot_id user_id : Nat) : Nat :=
  st.bookings.countP
    (fun b => b.slot_id == slot_id && b.user_id == user_id && b.status == BStatus.booked)

/-- States reachable from the fresh database by the core operations
executed sequentially.  `create_slot` carries the `1 ≤ cap` guard because
both of its call sites pass the capacity form field, which the UI bounds
below by 1 (`st.number_input("Capacity per slot", min_value=1)`,
app.py:337). -/
inductive Reachable : State → Prop where
  | init : Reachable initState
  | step_create_slot (st : State) (a b : Nat) (cap : Int) (uid : Nat) :
      Reachable st → 1 ≤ cap → Reachable (create_slot st a b cap uid)
  | step_book (st : State) (sid uid : Nat) (n e p no : String) :
      Reachable st → Reachable (book_slot st sid uid n e p no).1
  | step_cancel (st : State) (bid : Nat) :
      Reachable st → Reachable (cancel_booking st bid)
  | step_remove (st : State) (sid : Nat) :
      Reachable st → Reachable (remove_slot st sid)

/-! Example database states used by concrete witnesses. -/

/-- A capacity-3 slot with three bookings on it: two with status booked,
one with status canceled. -/
def exC4 : State :=
  { initState with
      slots := [{ id := 1, start_ts := 540, end_ts := 570, capacity := 3, created_by := 9 }],
      bookings :=
        [{ id := 1, slot_id := 1, user_id := 1, name := "a", email := "a", phone := "",
           notes := "", status := BStatus.booked },
         { id := 2, slot_id := 1, user_id := 2, name := "b", email := "b", phone := "",
           notes := "", status := BStatus.booked },
         { id := 3, slot_id := 1, user_id := 3, name := "c", email := "c", phone := "",
           notes := "", status := BStatus.canceled }],
      nextSlotId := 2, nextBookingId := 4 }

/-- A full capacity-1 slot whose single seat is held by user 5. -/
def exSt3 : State :=
  { initState with
      slots := [{ id := 1, start_ts := 540, end_ts := 570, capacity := 1, created_by := 9 }],
      bookings :=
        [{ id := 1, slot_id := 1, user_id := 5, name := "u", email := "u", phone := "",
           notes := "", status := BStatus.booked }],
      nextSlotId := 2, nextBookingId := 2 }

/-- Two slots with one booking each. -/
def exSt6 : State :=
  { initState with
      slots := [{ id := 1, start_ts := 540, end_ts := 570, capacity := 1, created_by := 9 },
                { id := 2, start_ts := 600, end_ts := 630, capacity := 1, created_by := 9 }],
      bookings :=
        [{ id := 1, slot_id := 1, user_id := 5, name := "u", email := "u", phone := "",
           notes := "", status := BStatus.booked },
         { id := 2, slot_id := 2, user_id := 6, name := "v", email := "v", phone := "",
           notes := "", status := BStatus.booked }],
      nextSlotId := 3, nextBookingId := 3 }

/-- The booking on slot 2 of `exSt6`. -/
def exB6 : Booking :=
  { id := 2, slot_id := 2, user_id := 6, name := "v", email := "v", phone := "",
    notes := "", status := BStatus.booked }

/-- A registered user with salt "s0" and derived key `exH "pw" "s0"`. -/
def exUser8 : User :=
  { id := 1, name := "n", email := "a@b", salt := "s0", pw_hash := "pw|s0", is_admin := false }

/-- A user store holding exactly `exUser8`. -/
def exSt8 : State := { initState with users := [exUser8], nextUserId := 2 }

/-- A concrete stand-in for the PBKDF2 derivation used by witnesses. -/
def exH : String → String → String := fun pw salt => pw ++ "|" ++ salt

/-- The state reached by creating one capacity-1 slot and booking it once. -/
def wSt1 : State := (book_slot (create_slot initState 540 570 1 7) 1 2 "a" "b" "" "").1

/-- The inductive invariant of the booking ledger: slot ids are below the
AUTOINCREMENT counter and pairwise distinct, every booking references an
already-issued slot id, no slot's booked count exceeds its capacity, and no
(slot, user) pair holds more than one booked booking. -/
structure DbInv (st : State) : Prop where
  slot_id_lt : ∀ s ∈ st.slots, s.id < st.nextSlotId
  slot_ids_nodup : (st.slots.map Slot.id).Nodup
  booking_slot_lt : ∀ b ∈ st.bookings, b.slot_id < st.nextSlotId
  cap_le : ∀ s ∈ st.slots, (countBookedBookings st s.id : Int) ≤ s.capacity
  pair_le : ∀ sid uid, countBookedPair st sid uid ≤ 1

/-! Helper lemmas. -/

lemma book_slot_err_or_ok (st : State) (sid uid : Nat) (n e p no : String) :
    (book_slot st sid uid n e p no).2 = BookResult.ok ∨ (book_slot st sid uid n e p no).1 = st := by
  unfold book_slot
  cases st.slots.find? (fun s => s.id == sid) with
  | none => right; rfl
  | some row =>
    simp only
    split
    · right; rfl
    · split
      · right; rfl
      · left; rfl

lemma book_slot_state_cases (st : State) (sid uid : Nat) (n e p no : String) :
    (book_slot st sid uid n e p no).1 = st ∨
    (∃ row, st.slots.find? (fun s => s.id == sid) = some row ∧
      (countBookedBookings st sid : Int) < row.capacity ∧
      countBookedPair st sid uid = 0 ∧
      (book_slot st sid uid n e p no).1 =
        { st with
            bookings := st.bookings ++
              [{ id := st.nextBookingId, slot_id := sid, user_id := uid,
                 name := n, email := e, phone := p, notes := no, status := BStatus.booked }],
            nextBookingId := st.nextBookingId + 1 }) := by
  unfold book_slot
  cases hf : st.slots.find? (fun s => s.id == sid) with
  | none => left; rfl
  | some row =>
    simp only
    split
    · left; rfl
    · rename_i hlt
      split
      · left; rfl
      · rename_i hdup
        right
        refine ⟨row, rfl, ?_, ?_, rfl⟩
        · unfold countBookedBookings
          omega
        · unfold countBookedPair
          omega

lemma countP_and_not_add {α : Type} (l : List α) (p q : α → Bool) :
    l.countP (fun a => p a && q a) + l.countP (fun a => p a && !q a) = l.countP p := by
  induction l with
  | nil => simp
  | cons a t ih =>
    simp only [List.countP_cons]
    cases hp : p a <;> cases hq : q a <;> simp [hp, hq] <;> omega

lemma slot_available_seats_eq (st : State) (sid : Nat) (cap : Int) :
    slot_available_seats st sid cap = max 0 (cap - countBookedBookings st sid) := by
  simp [slot_available_seats, countBookedBookings, List.countP_eq_length_filter]

lemma countBooked_cancel (st : State) (bid sid : Nat) :
    countBookedBookings (cancel_booking st bid) sid =
      countBookedBookings st sid -
        st.bookings.countP
          (fun b => (b.slot_id == sid && b.status == BStatus.booked) && b.id == bid) := by
  unfold countBookedBookings cancel_booking
  simp only [List.countP_map]
  have hcg : st.bookings.countP
      ((fun b => b.slot_id == sid && b.status == BStatus.booked) ∘
        (fun b => if b.id == bid then { b with status := BStatus.canceled } else b)) =
      st.bookings.countP
        (fun b => (b.slot_id == sid && b.status == BStatus.booked) && !(b.id == bid)) := by
    apply List.countP_congr
    intro b _
    by_cases h : b.id = bid <;> simp [h]
  rw [hcg]
  have := countP_and_not_add st.bookings
    (fun b => b.slot_id == sid && b.status == BStatus.booked) (fun b => b.id == bid)
  omega

lemma countBooked_create_slot (st : State) (a b : Nat) (cap : Int) (uid sid : Nat) :
    countBookedBookings (create_slot st a b cap uid) sid = countBookedBookings st sid := rfl

lemma countBooked_cancel_le (st : State) (bid sid : Nat) :
    countBookedBookings (cancel_booking st bid) sid ≤ countBookedBookings st sid := by
  unfold countBookedBookings cancel_booking
  simp only [List.countP_map]
  apply List.countP_mono_left
  intro x _ hx
  by_cases h : x.id = bid
  · simp [h] at hx
  · simpa [h] using hx

lemma countBookedPair_cancel_le (st : State) (bid sid uid : Nat) :
    countBookedPair (cancel_booking st bid) sid uid ≤ countBookedPair st sid uid := by
  unfold countBookedPair cancel_booking
  simp only [List.countP_map]
  apply List.countP_mono_left
  intro x _ hx
  by_cases h : x.id = bid
  · simp [h] at hx
  · simpa [h] using hx

lemma countBooked_remove_le (st : State) (rid sid : Nat) :
    countBookedBookings (remove_slot st rid) sid ≤ countBookedBookings st sid := by
  unfold countBookedBookings remove_slot
  simp only [List.countP_filter]
  apply List.countP_mono_left
  intro x _ hx
  simp only [Bool.and_eq_true] at hx
  simp [hx.1.1, hx.1.2]

lemma countBookedPair_remove_le (st : State) (rid sid uid : Nat) :
    countBookedPair (remove_slot st rid) sid uid ≤ countBookedPair st sid uid := by
  unfold countBookedPair remove_slot
  simp only [List.countP_filter]
  apply List.countP_mono_left
  intro x _ hx
  simp only [Bool.and_eq_true] at hx
  simp [hx.1.1, hx.1.2]

lemma inv_init : DbInv initState := by
  constructor <;> simp [initState, countBookedBookings, countBookedPair]

lemma inv_create_slot (st : State) (a b : Nat) (cap : Int) (uid : Nat)
    (h : DbInv st) (hcap : 1 ≤ cap) : DbInv (create_slot st a b cap uid) := by
  obtain ⟨h1, h2, h3, h4, h5⟩ := h
  refine ⟨?_, ?_, ?_, ?_, ?_⟩
  · intro s hs
    simp only [create_slot, List.mem_append, List.mem_singleton] at hs
    rcases hs with hs | rfl
    · exact Nat.lt_succ_of_lt (h1 s hs)
    · exact Nat.lt_succ_self _
  · simp only [create_slot, List.map_append, List.map_cons, List.map_nil]
    rw [List.nodup_append]
    refine ⟨h2, List.nodup_singleton _, ?_⟩
    intro x hx hx2
    simp only [List.mem_singleton] at hx2
    obtain ⟨s, hs, rfl⟩ := List.mem_map.mp hx
    have := h1 s hs
    omega
  · intro b hb
    exact Nat.lt_succ_of_lt (h3 b hb)
  · intro s hs
    rw [countBooked_create_slot]
    simp only [create_slot, List.mem_append, List.mem_singleton] at hs
    rcases hs with hs | rfl
    · exact h4 s hs
    · have hz : countBookedBookings st st.nextSlotId = 0 := by
        unfold countBookedBookings
        rw [List.countP_eq_zero]
        intro b hb
        have := h3 b hb
        simp only [Bool.and_eq_true, beq_iff_eq]
        omega
      simp only [hz]
      omega
  · intro sid uid'
    exact h5 sid uid'

lemma inv_cancel (st : State) (bid : Nat) (h : DbInv st) : DbInv (cancel_booking st bid) := by
  obtain ⟨h1, h2, h3, h4, h5⟩ := h
  refine ⟨h1, h2, ?_, ?_, ?_⟩
  · intro b hb
    simp only [cancel_booking, List.mem_map] at hb
    obtain ⟨a, ha, rfl⟩ := hb
    by_cases hid : a.id = bid <;> simp [hid] <;> exact h3 a ha
  · intro s hs
    have := countBooked_cancel_le st bid s.id
    have := h4 s hs
    omega
  · intro sid uid
    exact le_trans (countBookedPair_cancel_le st bid sid uid) (h5 sid uid)

lemma inv_remove (st : State) (rid : Nat) (h : DbInv st) : DbInv (remove_slot st rid) := by
  obtain ⟨h1, h2, h3, h4, h5⟩ := h
  refine ⟨?_, ?_, ?_, ?_, ?_⟩
  · intro s hs
    exact h1 s (List.mem_filter.mp hs).1
  · exact List.Nodup.sublist (List.Sublist.map _ (List.filter_sublist _)) h2
  · intro b hb
    exact h3 b (List.mem_filter.mp hb).1
  · intro s hs
    have := countBooked_remove_le st rid s.id
    have := h4 s (List.mem_filter.mp hs).1
    omega
  · intro sid uid
    exact le_trans (countBookedPair_remove_le st rid sid uid) (h5 sid uid)

lemma inv_book (st : State) (sid uid : Nat) (n e p no : String) (h : DbInv st) :
    DbInv (book_slot st sid uid n e p no).1 := by
  rcases book_slot_state_cases st sid uid n e p no with heq | ⟨row, hf, hlt, hdup0, heq⟩
  · rw [heq]; exact h
  · obtain ⟨h1, h2, h3, h4, h5⟩ := h
    have hrow_mem : row ∈ st.slots := List.mem_of_find?_eq_some hf
    have hrow_id : row.id = sid := by
      have := List.find?_some hf
      simpa using this
    rw [heq]
    refine ⟨h1, h2, ?_, ?_, ?_⟩
    · intro b hb
      simp only [List.mem_append, List.mem_singleton] at hb
      rcases hb with hb | rfl
      · exact h3 b hb
      · simp only
        rw [← hrow_id]
        exact h1 row hrow_mem
    · intro s hs
      have hsplit : countBookedBookings
          { st with
              bookings := st.bookings ++
                [{ id := st.nextBookingId, slot_id := sid, user_id := uid,
                   name := n, email := e, phone := p, notes := no, status := BStatus.booked }],
              nextBookingId := st.nextBookingId + 1 } s.id =
          countBookedBookings st s.id + (if sid = s.id then 1 else 0) := by
        unfold countBookedBookings
        rw [List.countP_append]
        simp only [List.countP_cons, List.countP_nil]
        by_cases hid : sid = s.id <;> simp [hid]
      rw [hsplit]
      by_cases hid : sid = s.id
      · have hseq : s = row := by
          apply List.inj_on_of_nodup_map h2 hs hrow_mem
          omega
        rw [hseq] at *
        simp only [hid, if_pos]
        rw [hrow_id] at *
        push_cast
        omega
      · simp only [hid, if_neg, if_false]
        simpa using h4 s hs
    · intro sid' uid'
      have hsplit : countBookedPair
          { st with
              bookings := st.bookings ++
                [{ id := st.nextBookingId, slot_id := sid, user_id := uid,
                   name := n, email := e, phone := p, notes := no, status := BStatus.booked }],
              nextBookingId := st.nextBookingId + 1 } sid' uid' =
          countBookedPair st sid' uid' + (if sid = sid' ∧ uid = uid' then 1 else 0) := by
        unfold countBookedPair
        rw [List.countP_append]
        simp only [List.countP_cons, List.countP_nil]
        by_cases hid : sid = sid' ∧ uid = uid'
        · simp [hid.1, hid.2]
        · rw [if_neg hid]
          have : (sid == sid' && uid == uid' && (BStatus.booked == BStatus.booked)) = false := by
            rcases Decidable.not_and_iff_or_not.mp hid with hx | hx <;> simp [hx]
          simp [this]
          exact fun ha hb => hid ⟨ha, hb⟩
      rw [hsplit]
      by_cases hid : sid = sid' ∧ uid = uid'
      · rw [if_pos hid]
        rw [← hid.1, ← hid.2, hdup0]
      · rw [if_neg hid]
        simpa using h5 sid' uid'

lemma reachable_inv {st : State} (h : Reachable st) : DbInv st := by
  induction h with
  | init => exact inv_init
  | step_create_slot st a b cap uid _ hcap ih => exact inv_create_slot st a b cap uid ih hcap
  | step_book st sid uid n e p no _ ih => exact inv_book st sid uid n e p no ih
  | step_cancel st bid _ ih => exact inv_cancel st bid ih
  | step_remove st sid _ ih => exact inv_remove st sid ih

lemma create_slots_in_day_eq (dur : Nat) (hd : 0 < dur) (dt_end : Nat) :
    ∀ (n cursor : Nat), dt_end - cursor ≤ n →
      ∀ (st : State) (cap : Int) (uid created : Nat),
        create_slots_in_day st cursor dt_end dur cap uid created =
          ({ st with
              slots := st.slots ++ (List.range ((dt_end - cursor) / dur)).map
                (fun k => { id := st.nextSlotId + k, start_ts := cursor + k * dur,
                            end_ts := cursor + (k + 1) * dur, capacity := cap,
                            created_by := uid }),
              nextSlotId := st.nextSlotId + (dt_end - cursor) / dur },
           created + (dt_end - cursor) / dur) := by
  intro n
  induction n with
  | zero =>
    intro cursor hc st cap uid created
    have hguard : ¬(0 < dur ∧ cursor + dur ≤ dt_end) := by omega
    have hdiv : (dt_end - cursor) / dur = 0 := by
      apply Nat.div_eq_of_lt
      omega
    rw [create_slots_in_day, dif_neg hguard, hdiv]
    simp
  | succ n ih =>
    intro cursor hc st cap uid created
    by_cases hguard : 0 < dur ∧ cursor + dur ≤ dt_end
    · rw [create_slots_in_day, dif_pos hguard]
      have hrec := ih (cursor + dur) (by omega) (create_slot st cursor (cursor + dur) cap uid)
        cap uid (created + 1)
      rw [hrec]
      have hm : dt_end - (cursor + dur) = dt_end - cursor - dur := by omega
      have hdiv : (dt_end - cursor) / dur = (dt_end - cursor - dur) / dur + 1 :=
        Nat.div_eq_sub_div hd (by omega)
      set m := (dt_end - cursor - dur) / dur with hmdef
      simp only [create_slot, hm]
      refine congrArg₂ Prod.mk ?_ (by omega)
      have hrange : (List.range (m + 1)).map
          (fun k => ({ id := st.nextSlotId + k, start_ts := cursor + k * dur,
                       end_ts := cursor + (k + 1) * dur, capacity := cap,
                       created_by := uid } : Slot)) =
          ({ id := st.nextSlotId, start_ts := cursor, end_ts := cursor + dur,
             capacity := cap, created_by := uid } : Slot) ::
            (List.range m).map
              (fun k => { id := st.nextSlotId + 1 + k, start_ts := cursor + dur + k * dur,
                          end_ts := cursor + dur + (k + 1) * dur, capacity := cap,
                          created_by := uid }) := by
        rw [List.range_succ_eq_map, List.map_cons, List.map_map]
        refine congrArg₂ List.cons (by simp) ?_
        apply List.map_congr_left
        intro k _
        simp only [Function.comp, Nat.succ_eq_add_one, Slot.mk.injEq]
        exact ⟨by omega, by ring, by ring, trivial, trivial⟩
      rw [hdiv, hrange]
      simp [List.append_assoc]
      omega
    · have hlt : dt_end - cursor < dur := by omega
      have hdiv : (dt_end - cursor) / dur = 0 := Nat.div_eq_of_lt hlt
      rw [create_slots_in_day, dif_neg hguard, hdiv]
      simp

/-! Claim theorems. -/

/-- C1: in every state reachable by the core operations (createSlot,
bookSlot, cancelBooking, removeSlot) executed sequentially, no slot's count
of booked-status bookings exceeds that slot's capacity. -/
theorem booked_count_le_capacity (st : State) (h : Reachable st) :
    ∀ s ∈ st.slots, (countBookedBookings st s.id : Int) ≤ s.capacity :=
  (reachable_inv h).cap_le

/-- Witness for C1: after creating one capacity-1 slot and booking it once,
its booked count is within its capacity. -/
theorem booked_count_le_capacity_w : (countBookedBookings wSt1 1 : Int) ≤ 1 :=
  booked_count_le_capacity wSt1
    (Reachable.step_book _ 1 2 "a" "b" "" ""
      (Reachable.step_create_slot _ 540 570 1 7 Reachable.init (by norm_num)))
    { id := 1, start_ts := 540, end_ts := 570, capacity := 1, created_by := 7 } (by decide)

/-- C2: in every state reachable by the core operations executed
sequentially, every (slot, user) pair holds at most one booking with
status booked. -/
theorem booked_pair_at_most_one (st : State) (h : Reachable st) (sid uid : Nat) :
    countBookedPair st sid uid ≤ 1 :=
  (reachable_inv h).pair_le sid uid

/-- Witness for C2: in the same reachable state, the pair (slot 1, user 2)
holds at most one booked booking. -/
theorem booked_pair_at_most_one_w : countBookedPair wSt1 1 2 ≤ 1 :=
  booked_pair_at_most_one wSt1
    (Reachable.step_book _ 1 2 "a" "b" "" ""
      (Reachable.step_create_slot _ 540 570 1 7 Reachable.init (by norm_num)))
    1 2

/-- C3: book_slot tests SlotNotFound, SlotFull and DuplicateBooking in that
order: a missing slot yields slotNotFound; a slot at (or beyond) capacity
yields slotFull with no side condition on the user's existing bookings, so
a user re-booking a full slot receives slotFull rather than
duplicateBooking; and duplicateBooking is only reached when the capacity
check has passed. -/
theorem book_slot_check_order (st : State) (sid uid : Nat) (n e p no : String) :
    (st.slots.find? (fun s => s.id == sid) = none →
      book_slot st sid uid n e p no = (st, BookResult.slotNotFound))
    ∧ (∀ row, st.slots.find? (fun s => s.id == sid) = some row →
        row.capacity ≤ (countBookedBookings st sid : Int) →
        book_slot st sid uid n e p no = (st, BookResult.slotFull))
    ∧ (∀ row, st.slots.find? (fun s => s.id == sid) = some row →
        (countBookedBookings st sid : Int) < row.capacity →
        0 < countBookedPair st sid uid →
        book_slot st sid uid n e p no = (st, BookResult.duplicateBooking)) := by
  refine ⟨?_, ?_, ?_⟩
  · intro hf
    unfold book_slot
    rw [hf]
  · intro row hf hfull
    unfold book_slot
    rw [hf]
    simp only
    rw [if_pos]
    exact hfull
  · intro row hf hcap hdup
    unfold book_slot
    rw [hf]
    simp only
    rw [if_neg, if_pos]
    · exact hdup
    · exact not_le.mpr hcap

/-- Witness for C3: user 5 already holds the single seat of slot 1 in
`exSt3`; re-booking yields slotFull, not duplicateBooking. -/
theorem book_slot_check_order_w :
    book_slot exSt3 1 5 "u" "u" "" "" = (exSt3, BookResult.slotFull) :=
  (book_slot_check_order exSt3 1 5 "u" "u" "" "").2.1
    { id := 1, start_ts := 540, end_ts := 570, capacity := 1, created_by := 9 }
    (by rfl) (by decide)

/-- C4 counterexample: the claim asserts that for a slot with capacity 3,
2 booked bookings and 1 canceled booking, availableSeats returns 2; the
code returns max(0, 3 - 2) = 1 on exactly that input. -/
theorem available_seats_claim_cex :
    slot_available_seats exC4 1 3 = 1 ∧ slot_available_seats exC4 1 3 ≠ 2 := by
  decide

/-- C4 (amended): availableSeats(slot) equals
max(0, capacity - countBookedBookings(slot)), recomputed from the ledger at
read time; in particular, for a slot with capacity 3, 2 booked bookings and
1 canceled booking it returns 1 (the canceled booking does not count). -/
theorem available_seats_spec :
    (∀ (st : State) (sid : Nat) (cap : Int),
      slot_available_seats st sid cap = max 0 (cap - countBookedBookings st sid))
    ∧ slot_available_seats exC4 1 3 = 1 :=
  ⟨slot_available_seats_eq, by decide⟩

/-- C5: cancel_booking rewrites exactly the rows whose id matches (setting
their status to canceled) and leaves every other row untouched; it is a
no-op on a state whose matching rows are already canceled; and when the
ledger holds exactly one booked row with that id for a slot whose booked
count does not exceed the capacity, it increases that slot's availableSeats
by exactly 1. -/
theorem cancel_booking_spec (st : State) (bid : Nat) :
    (∀ i : Nat, ∀ b, st.bookings[i]? = some b →
      (cancel_booking st bid).bookings[i]? =
        some (if b.id = bid then { b with status := BStatus.canceled } else b))
    ∧ ((∀ b ∈ st.bookings, b.id = bid → b.status = BStatus.canceled) →
        cancel_booking st bid = st)
    ∧ (∀ (sid : Nat) (cap : Int),
        st.bookings.countP
            (fun b => (b.slot_id == sid && b.status == BStatus.booked) && b.id == bid) = 1 →
        (countBookedBookings st sid : Int) ≤ cap →
        slot_available_seats (cancel_booking st bid) sid cap =
          slot_available_seats st sid cap + 1) := by
  refine ⟨?_, ?_, ?_⟩
  · intro i b hb
    simp only [cancel_booking, List.getElem?_map, hb, Option.map_some]
    by_cases h : b.id = bid <;> simp [h]
  · intro hall
    have hmap : st.bookings.map
        (fun b => if b.id == bid then { b with status := BStatus.canceled } else b) =
        st.bookings := by
      conv_rhs => rw [← List.map_id st.bookings]
      apply List.map_congr_left
      intro b hb
      by_cases h : b.id = bid
      · have hst := hall b hb h
        cases b
        simp_all
      · simp [h]
    unfold cancel_booking
    rw [hmap]
  · intro sid cap h1 hle
    have hc := countBooked_cancel st bid sid
    have hge : 1 ≤ countBookedBookings st sid := by
      have hmono := List.countP_mono_left (l := st.bookings)
        (p := fun b => (b.slot_id == sid && b.status == BStatus.booked) && b.id == bid)
        (q := fun b => b.slot_id == sid && b.status == BStatus.booked)
        (by intro x _ hx; simp only [Bool.and_eq_true] at hx ⊢; exact hx.1)
      unfold countBookedBookings
      omega
    rw [slot_available_seats_eq, slot_available_seats_eq, hc, h1]
    rw [max_eq_right (by omega), max_eq_right (by omega)]
    omega

/-- Witness for C5: canceling booking 1 of `exC4` (slot 1 holds 2 booked
rows against capacity 3) raises the slot's availableSeats by exactly 1. -/
theorem cancel_booking_spec_w :
    slot_available_seats (cancel_booking exC4 1) 1 3 =
      slot_available_seats exC4 1 3 + 1 :=
  (cancel_booking_spec exC4 1).2.2 1 3 (by decide) (by decide)

/-- C6: after remove_slot, no booking referencing the slot remains, the
slot itself is gone, get_slots_by_date never returns it for any date, and
every row not referencing the slot survives. -/
theorem remove_slot_spec (st : State) (sid : Nat) :
    (∀ b ∈ (remove_slot st sid).bookings, b.slot_id ≠ sid)
    ∧ (∀ s ∈ (remove_slot st sid).slots, s.id ≠ sid)
    ∧ (∀ d : Nat, ∀ x ∈ get_slots_by_date (remove_slot st sid) d, x.1.id ≠ sid)
    ∧ (∀ b ∈ st.bookings, b.slot_id ≠ sid → b ∈ (remove_slot st sid).bookings)
    ∧ (∀ s ∈ st.slots, s.id ≠ sid → s ∈ (remove_slot st sid).slots) := by
  refine ⟨?_, ?_, ?_, ?_, ?_⟩
  · intro b hb
    have := (List.mem_filter.mp hb).2
    simpa using this
  · intro s hs
    have := (List.mem_filter.mp hs).2
    simpa using this
  · intro d x hx
    simp only [get_slots_by_date, List.mem_map] at hx
    obtain ⟨s, hs, rfl⟩ := hx
    rw [List.mem_mergeSort] at hs
    have := (List.mem_filter.mp ((List.mem_filter.mp hs).1)).2
    simpa using this
  · intro b hb hne
    exact List.mem_filter.mpr ⟨hb, by simp [hne]⟩
  · intro s hs hne
    exact List.mem_filter.mpr ⟨hs, by simp [hne]⟩

/-- Witness for C6: removing slot 1 of `exSt6` keeps the booking that
references slot 2. -/
theorem remove_slot_spec_w : exB6 ∈ (remove_slot exSt6 1).bookings :=
  (remove_slot_spec exSt6 1).2.2.2.1 exB6 (by decide) (by decide)

/-- C7: on one day the recurring-slot generator tiles slot k over
[start + k*dur, start + (k+1)*dur), creating it only when its end is at or
before the daily end time, for a total of (end - start) / dur slots, and
reports that count; concretely, a 1-day range with a 09:00-10:00 window
(minutes 540-600), 30-minute duration and all weekdays allowed creates
exactly 2 slots, [540,570) and [570,600), and returns 2. -/
theorem recurring_tiling_spec (dur : Nat) (hd : 0 < dur) :
    (∀ (st : State) (cursor dt_end : Nat) (cap : Int) (uid : Nat),
      (create_slots_in_day st cursor dt_end dur cap uid 0).2 = (dt_end - cursor) / dur
      ∧ (create_slots_in_day st cursor dt_end dur cap uid 0).1.slots.length
          = st.slots.length + (dt_end - cursor) / dur
      ∧ ∀ k, k < (dt_end - cursor) / dur →
          (create_slots_in_day st cursor dt_end dur cap uid 0).1.slots[st.slots.length + k]? =
            some { id := st.nextSlotId + k, start_ts := cursor + k * dur,
                   end_ts := cursor + (k + 1) * dur, capacity := cap, created_by := uid }
          ∧ cursor + (k + 1) * dur ≤ dt_end)
    ∧ (create_slots_handler initState 0 0 [] 540 600 30 1 1).2 = 2
    ∧ (create_slots_handler initState 0 0 [] 540 600 30 1 1).1.slots.map
        (fun s => (s.start_ts, s.end_ts)) = [(540, 570), (570, 600)] := by
  refine ⟨?_, ?_, ?_⟩
  · intro st cursor dt_end cap uid
    have heq := create_slots_in_day_eq dur hd dt_end (dt_end - cursor) cursor le_rfl st cap uid 0
    rw [heq]
    refine ⟨by simp, by simp, ?_⟩
    intro k hk
    constructor
    · simp only
      rw [List.getElem?_append_right (by omega)]
      simp only [Nat.add_sub_cancel_left, List.getElem?_map, List.getElem?_range hk]
      rfl
    · have h2 : (k + 1) * dur ≤ ((dt_end - cursor) / dur) * dur :=
        Nat.mul_le_mul_right _ hk
      have h3 : ((dt_end - cursor) / dur) * dur ≤ dt_end - cursor :=
        Nat.div_mul_le_self _ _
      have h4 : dur ≤ dt_end - cursor := (Nat.one_le_div_iff hd).mp (by omega)
      omega
  · simp [create_slots_handler, create_slots_over_days, create_slots_in_day, create_slot, initState]
  · simp [create_slots_handler, create_slots_over_days, create_slots_in_day, create_slot, initState]

/-- Witness for C7: tiling a 540-600 minute window with 30-minute slots
creates 2 slots. -/
theorem recurring_tiling_spec_w :
    (create_slots_in_day initState 540 600 30 1 1 0).2 = 2 :=
  ((recurring_tiling_spec 30 (by norm_num)).1 initState 540 600 1 1).1

/-- C8: authenticate_user returns none when the email is unknown, none
when the email is known but the recomputed derived key differs from the
stored hash, and the matching user record when both agree. -/
theorem authenticate_spec (H : String → String → String) (st : State) (email pw : String) :
    (get_user_by_email st email = none → authenticate_user H st email pw = none)
    ∧ (∀ u, get_user_by_email st email = some u → H pw u.salt ≠ u.pw_hash →
        authenticate_user H st email pw = none)
    ∧ (∀ u, get_user_by_email st email = some u → H pw u.salt = u.pw_hash →
        authenticate_user H st email pw = some u) := by
  refine ⟨?_, ?_, ?_⟩
  · intro hf
    unfold authenticate_user
    rw [hf]
  · intro u hf hne
    unfold authenticate_user
    rw [hf]
    simp [verify_password, hne]
  · intro u hf heq
    unfold authenticate_user
    rw [hf]
    simp [verify_password, heq]

/-- Witness for C8: correct credentials return the stored user record. -/
theorem authenticate_spec_w : authenticate_user exH exSt8 "a@b" "pw" = some exUser8 :=
  (authenticate_spec exH exSt8 "a@b" "pw").2.2 exUser8 (by rfl) (by rfl)

/-- C9: createUser persists the whitespace-trimmed, lowercased email; when
a user with that normalized email already exists it fails with the
duplicate-email error and leaves the store unchanged; otherwise it appends
exactly one user carrying the salt and the derived key of the password. -/
theorem createUser_spec (H : String → String → String) (salt : String) (st : State)
    (name email pw : String) (adm : Bool) :
    ((∃ u ∈ st.users, u.email = email.trim.toLower) →
      createUser H salt st name email pw adm = (st, (false, "Email already registered")))
    ∧ ((∀ u ∈ st.users, u.email ≠ email.trim.toLower) →
      createUser H salt st name email pw adm =
        ({ st with
            users := st.users ++
              [{ id := st.nextUserId, name := name.trim, email := email.trim.toLower,
                 salt := salt, pw_hash := H pw salt, is_admin := adm }],
            nextUserId := st.nextUserId + 1 },
         (true, "User created"))) := by
  constructor
  · intro ⟨u, hu, he⟩
    unfold createUser create_user
    rw [if_pos]
    exact List.any_eq_true.mpr ⟨u, hu, by simp [he]⟩
  · intro hall
    unfold createUser create_user hash_password
    rw [if_neg]
    simp only [List.any_eq_true, not_exists, not_and]
    intro u hu
    simp [hall u hu]

/-- Witness for C9: registering on the empty store persists one user with
the normalized email. -/
theorem createUser_spec_w :
    createUser exH "s1" initState " Name " " A@B.c " "pw" false =
      ({ initState with
          users := initState.users ++
            [{ id := initState.nextUserId, name := " Name ".trim,
               email := " A@B.c ".trim.toLower, salt := "s1",
               pw_hash := exH "pw" "s1", is_admin := false }],
          nextUserId := initState.nextUserId + 1 },
       (true, "User created")) :=
  (createUser_spec exH "s1" initState " Name " " A@B.c " "pw" false).2
    (by simp [initState])

/-- C10: whenever book_slot returns an error, the state (slot registry and
booking ledger included) is returned exactly as it was. -/
theorem book_slot_error_frame (st : State) (sid uid : Nat) (n e p no : String)
    (h : (book_slot st sid uid n e p no).2 ≠ BookResult.ok) :
    (book_slot st sid uid n e p no).1 = st :=
  (book_slot_err_or_ok st sid uid n e p no).resolve_left h

/-- Witness for C10: booking a nonexistent slot on the fresh database
leaves it unchanged. -/
theorem book_slot_error_frame_w :
    (book_slot initState 1 1 "a" "b" "c" "d").1 = initState :=
  book_slot_error_frame initState 1 1 "a" "b" "c" "d" (by decide)
